import Mathlib

/-
Shallow embedding of the weather-forecast caching repository.

The repository's only implementation file is
`src/rust/src/non_caching_client.rs`: a sample `NonCachingClient` whose
`query(start, end)` fetches the remote five-day forecast on every call and
then validates, selects a granularity from the span, and resamples the
payload with a last-known-value loop.  Timestamps are `i64` seconds; we
embed them as `Int`.  Temperatures (`f64`) are only stored and copied,
never computed with, so we embed them as `Int` to keep equality decidable.

The caching layer itself (`RangeCache` of the design document) is not
present in the repository; only its trait declaration (`OpenWeatherCache`
in `src/rust/src/lib.rs`) and the design document describe it.  It is
modelled from the spec further below.
-/

namespace WeatherCache

/-- `const TWO_HOURS: i64 = 2 * 60 * 60` -/
def TWO_HOURS : Int := 2 * 60 * 60

/-- `const ONE_DAY: i64 = 24 * 60 * 60` -/
def ONE_DAY : Int := 24 * 60 * 60

/-- `const MINUTE: i64 = 60` -/
def MINUTE : Int := 60

/-- `const FIVE_MINUTES: i64 = 5 * 60` -/
def FIVE_MINUTES : Int := 5 * 60

/-- `const ONE_HOUR: i64 = 60 * 60` -/
def ONE_HOUR : Int := 60 * 60

/-- Error taxonomy of the design document; each constructor corresponds to
one distinct error site of `NonCachingClient::query` (the Rust code builds
`anyhow!` messages at those sites). -/
inductive QueryError where
  /-- the remote fetch itself failed (`?` propagation on the fetch) -/
  | remoteUnavailable : QueryError
  /-- `remote_data.list.is_empty()` -/
  | emptyPayload : QueryError
  /-- `start > end` -/
  | invalidRange : QueryError
  /-- the availability-range check failed -/
  | rangeUnavailable : QueryError
deriving DecidableEq

/-- Model of building `BTreeMap::<i64, f64>::new()` by inserting every
payload entry in list order and then `returned_data_map.range(..i).next_back()`:
the entry with the greatest key strictly below `i`; for duplicate keys the
last inserted value wins. -/
def lookupStep (i : Int) (acc : Option (Int × Int)) (p : Int × Int) :
    Option (Int × Int) :=
  if p.1 < i then
    match acc with
    | none => some p
    | some q => if q.1 ≤ p.1 then some p else some q
  else acc

/-- The map built by inserting every payload entry in list order, queried
with `range(..i).next_back()`: fold `lookupStep` over the entries. -/
def lookupBeforeEntry (obs : List (Int × Int)) (i : Int) : Option (Int × Int) :=
  obs.foldl (lookupStep i) none

/-- The temperature component of `range(..i).next_back()`, matching the
`match` in the Rust loop (`None => push None, Some((_, temp)) => push Some(temp)`). -/
def lookupBefore (obs : List (Int × Int)) (i : Int) : Option Int :=
  (lookupBeforeEntry obs i).map Prod.snd

/-- The resampling loop of `NonCachingClient::query`:
`let mut i = start_secs; while i < end_secs { i = i + granularity; push(range(..i).next_back()) }`.
The `0 < g` conjunct only serves termination; at every call site the
granularity is one of 60, 300, 3600, so it is always true there. -/
def resampleLoop (obs : List (Int × Int)) (g endSecs : Int) (i : Int) :
    List (Option Int) :=
  if _h : 0 < g ∧ i < endSecs then
    lookupBefore obs (i + g) :: resampleLoop obs g endSecs (i + g)
  else []
termination_by (endSecs - i).toNat
decreasing_by omega

/-- `remote_data.list[0].dt` (the payload is non-empty wherever this is
read, so the default is never used). -/
def minDt (l : List (Int × Int)) : Int := (l.head?.getD (0, 0)).1

/-- `remote_data.list[remote_data.list.len() - 1].dt` -/
def maxDt (l : List (Int × Int)) : Int := (l.getLast?.getD (0, 0)).1

/-- The granularity selection of `NonCachingClient::query`:
minute for less than 2 hours, 5 minutes for less than 1 day, 1 hour otherwise. -/
def granularity (requestedRange : Int) : Int :=
  if requestedRange < TWO_HOURS then MINUTE
  else if requestedRange < ONE_DAY then FIVE_MINUTES
  else ONE_HOUR

/-- Shallow embedding of `NonCachingClient::query` after the remote fetch
has completed.  `fetchResult` is the outcome of
`get_remote_data_five_day_forecast().await?`: `none` when the fetch fails
(the `?` propagates, embedded as `remoteUnavailable`), `some list` when it
returns a payload of `(dt, temp)` entries.  The branch order is the
source's: empty-payload check, `start > end`, `start == end`, the
availability check `available_range = min_dt..max_dt` requiring
`contains(start_secs) && contains(end_secs)` with Rust's half-open range,
then granularity selection and the resampling loop. -/
def query (fetchResult : Option (List (Int × Int))) (startSecs endSecs : Int) :
    Except QueryError (List (Option Int)) :=
  match fetchResult with
  | none => .error .remoteUnavailable
  | some list =>
    if list.isEmpty then .error .emptyPayload
    else if startSecs > endSecs then .error .invalidRange
    else if startSecs = endSecs then .ok []
    else if ¬((minDt list ≤ startSecs ∧ startSecs < maxDt list) ∧
              (minDt list ≤ endSecs ∧ endSecs < maxDt list)) then
      .error .rangeUnavailable
    else
      .ok (resampleLoop list (granularity (endSecs - startSecs)) endSecs startSecs)

/-- The design document's wording for the resampler value rule, stated for
a payload sorted ascending by timestamp: "the value is the temperature of
the latest observation with timestamp ≤ t".  Used only to compare the
spec's words against the code's behaviour. -/
def latestAtOrBefore (obs : List (Int × Int)) (t : Int) : Option Int :=
  ((obs.filter (fun p => p.1 ≤ t)).getLast?).map Prod.snd

/-- The latest observation strictly before `t`, for a payload sorted
ascending by timestamp: what the code's `range(..i).next_back()` computes
(proved below). -/
def latestStrictlyBefore (obs : List (Int × Int)) (t : Int) : Option Int :=
  ((obs.filter (fun p => p.1 < t)).getLast?).map Prod.snd

end WeatherCache

namespace WeatherCache

theorem granularity_pos (span : Int) : 0 < granularity span := by
  unfold granularity MINUTE FIVE_MINUTES ONE_HOUR
  split_ifs <;> norm_num

/-- One loop iteration: advance, then emit. -/
theorem resampleLoop_step (obs : List (Int × Int)) {g endSecs i : Int}
    (hg : 0 < g) (hi : i < endSecs) :
    resampleLoop obs g endSecs i =
      lookupBefore obs (i + g) :: resampleLoop obs g endSecs (i + g) := by
  rw [resampleLoop]
  exact dif_pos ⟨hg, hi⟩

/-- Loop exit: once `i` has reached `endSecs`, nothing more is emitted. -/
theorem resampleLoop_stop (obs : List (Int × Int)) {g endSecs i : Int}
    (hi : ¬ i < endSecs) :
    resampleLoop obs g endSecs i = [] := by
  rw [resampleLoop]
  exact dif_neg (fun hc => hi hc.2)

/-- When the span is an exact multiple `g * k` of the granularity, the loop
emits exactly `k` values, independently of the observation store. -/
theorem resampleLoop_length_mul (obs : List (Int × Int)) {g : Int}
    (hg : 0 < g) (endSecs : Int) (k : Nat) :
    ∀ i : Int, endSecs - i = g * k → (resampleLoop obs g endSecs i).length = k := by
  induction k with
  | zero =>
    intro i hk
    rw [resampleLoop_stop obs (by omega)]
    rfl
  | succ k ih =>
    intro i hk
    have hlt : i < endSecs := by
      have hk2 : endSecs - i = g * ((k : Int) + 1) := by push_cast at hk ⊢; linarith
      nlinarith [Int.natCast_nonneg k]
    rw [resampleLoop_step obs hg hlt]
    have : endSecs - (i + g) = g * k := by push_cast at hk ⊢; linarith
    simp [ih (i + g) this]

/-- Index-wise characterization of the loop output: the `n`-th emitted
value is the strictly-before lookup at slot timestamp `i + (n+1) * g`. -/
theorem resampleLoop_get (obs : List (Int × Int)) {g : Int} (hg : 0 < g)
    (endSecs : Int) (n : Nat) :
    ∀ i : Int, (resampleLoop obs g endSecs i).get? n =
      if i + n * g < endSecs then some (lookupBefore obs (i + (n + 1) * g))
      else none := by
  induction n with
  | zero =>
    intro i
    by_cases hi : i < endSecs
    · rw [resampleLoop_step obs hg hi]
      simp [hi]
    · rw [resampleLoop_stop obs hi]
      simp [hi]
  | succ n ih =>
    intro i
    by_cases hi : i < endSecs
    · rw [resampleLoop_step obs hg hi]
      have := ih (i + g)
      simp only [List.get?_cons_succ, this]
      have harith : i + g + n * g = i + (n + 1 : Nat) * g := by push_cast; ring
      have harith2 : i + g + ((n : Int) + 1) * g = i + (((n + 1 : Nat) : Int) + 1) * g := by
        push_cast; ring
      rw [harith, harith2]
    · rw [resampleLoop_stop obs hi]
      have : ¬ i + (n + 1 : Nat) * g < endSecs := by
        have : (0 : Int) ≤ (n + 1 : Nat) * g := by positivity
        omega
      simp only [List.get?_nil]
      rw [if_neg this]

theorem lookupStep_none (i : Int) (p : Int × Int) :
    lookupStep i none p = if p.1 < i then some p else none := rfl

theorem lookupStep_some (i : Int) (q p : Int × Int) :
    lookupStep i (some q) p =
      if p.1 < i then (if q.1 ≤ p.1 then some p else some q) else some q := rfl

theorem lookupStep_isSome (i : Int) (q : Int × Int) (p : Int × Int) :
    (lookupStep i (some q) p).isSome := by
  rw [lookupStep_some]
  split_ifs <;> simp

theorem foldl_lookupStep_isSome (i : Int) (obs : List (Int × Int)) :
    ∀ acc : Option (Int × Int), acc.isSome →
      (obs.foldl (lookupStep i) acc).isSome := by
  induction obs with
  | nil => intro acc h; simpa using h
  | cons p rest ih =>
    intro acc h
    cases acc with
    | none => simp at h
    | some q =>
      simp only [List.foldl_cons]
      exact ih _ (lookupStep_isSome i q p)

theorem foldl_lookupStep_isSome_of_mem (i : Int) (obs : List (Int × Int)) :
    ∀ acc : Option (Int × Int), (∃ p ∈ obs, p.1 < i) →
      (obs.foldl (lookupStep i) acc).isSome := by
  induction obs with
  | nil => intro acc h; simp at h
  | cons p rest ih =>
    intro acc h
    obtain ⟨x, hx, hxi⟩ := h
    rcases List.mem_cons.mp hx with rfl | hxr
    · have hstep : (lookupStep i acc x).isSome := by
        cases acc with
        | none => rw [lookupStep_none, if_pos hxi]; simp
        | some q => exact lookupStep_isSome i q x
      simp only [List.foldl_cons]
      cases hq : lookupStep i acc x with
      | none => rw [hq] at hstep; simp at hstep
      | some q => exact foldl_lookupStep_isSome i rest (some q) (by simp)
    · exact ih _ ⟨x, hxr, hxi⟩

/-- If some observation lies strictly before `i`, the lookup finds an entry. -/
theorem lookupBeforeEntry_isSome (obs : List (Int × Int)) (i : Int)
    (h : ∃ p ∈ obs, p.1 < i) : (lookupBeforeEntry obs i).isSome :=
  foldl_lookupStep_isSome_of_mem i obs none h

theorem foldl_lookupStep_const (i : Int) (obs : List (Int × Int)) :
    ∀ acc : Option (Int × Int), (∀ p ∈ obs, ¬ p.1 < i) →
      obs.foldl (lookupStep i) acc = acc := by
  induction obs with
  | nil => intro acc _; rfl
  | cons p rest ih =>
    intro acc h
    simp only [List.foldl_cons]
    have hstep : lookupStep i acc p = acc := by
      unfold lookupStep
      rw [if_neg (h p (List.mem_cons_self p rest))]
    rw [hstep]
    exact ih acc (fun q hq => h q (List.mem_cons_of_mem p hq))

/-- If no observation lies strictly before `i`, the lookup finds nothing. -/
theorem lookupBeforeEntry_eq_none (obs : List (Int × Int)) (i : Int)
    (h : ∀ p ∈ obs, ¬ p.1 < i) : lookupBeforeEntry obs i = none :=
  foldl_lookupStep_const i obs none h

theorem getLast?_elim_cons (l : List (Int × Int)) :
    ∀ (a : Int × Int) (acc : Option (Int × Int)),
      ((a :: l).getLast?).elim acc some = (l.getLast?).elim (some a) some := by
  induction l with
  | nil => intro a acc; rfl
  | cons x xs ih =>
    intro a acc
    rw [List.getLast?_cons_cons, ih x acc, ih x (some a)]

/-- On a payload sorted strictly ascending by timestamp, folding
`lookupStep` from any accumulator whose key is below every payload key
yields the last entry with key below `i`, or the accumulator if none. -/
theorem foldl_lookupStep_sorted (i : Int) :
    ∀ (obs : List (Int × Int)) (acc : Option (Int × Int)),
      obs.Pairwise (fun p q => p.1 < q.1) →
      (∀ p ∈ obs, ∀ q, acc = some q → q.1 < p.1) →
      obs.foldl (lookupStep i) acc =
        ((obs.filter (fun p => p.1 < i)).getLast?).elim acc some := by
  intro obs
  induction obs with
  | nil => intro acc _ _; rfl
  | cons p rest ih =>
    intro acc hsort hacc
    have hhead : ∀ q ∈ rest, p.1 < q.1 := (List.pairwise_cons.mp hsort).1
    have hrest : rest.Pairwise (fun p q => p.1 < q.1) :=
      (List.pairwise_cons.mp hsort).2
    simp only [List.foldl_cons]
    by_cases hp : p.1 < i
    · have hstep : lookupStep i acc p = some p := by
        cases hq : acc with
        | none => rw [lookupStep_none, if_pos hp]
        | some q =>
          have hlt := hacc p (List.mem_cons_self p rest) q hq
          rw [lookupStep_some, if_pos hp, if_pos (le_of_lt hlt)]
      rw [hstep, ih (some p) hrest
        (fun x hx q hq => by rw [Option.some_inj] at hq; rw [← hq]; exact hhead x hx)]
      have hfil : (p :: rest).filter (fun p => p.1 < i) =
          p :: rest.filter (fun p => p.1 < i) := by
        rw [List.filter_cons, if_pos (by simpa using hp)]
      rw [hfil, getLast?_elim_cons]
    · have hstep : lookupStep i acc p = acc := by
        cases acc with
        | none => rw [lookupStep_none, if_neg hp]
        | some q => rw [lookupStep_some, if_neg hp]
      have hfil : (p :: rest).filter (fun p => p.1 < i) =
          rest.filter (fun p => p.1 < i) := by
        rw [List.filter_cons, if_neg (by simpa using hp)]
      rw [hstep, hfil,
        ih acc hrest (fun x hx q hq => hacc x (List.mem_cons_of_mem p hx) q hq)]

/-- On a payload sorted strictly ascending by timestamp,
`range(..i).next_back()` is exactly the last entry with key below `i`. -/
theorem lookupBeforeEntry_sorted (obs : List (Int × Int)) (i : Int)
    (hsort : obs.Pairwise (fun p q => p.1 < q.1)) :
    lookupBeforeEntry obs i = (obs.filter (fun p => p.1 < i)).getLast? := by
  unfold lookupBeforeEntry
  rw [foldl_lookupStep_sorted i obs none hsort (by intro p _ q hq; cases hq)]
  cases (obs.filter (fun p => p.1 < i)).getLast? <;> rfl

/-- The value the resampling loop assigns to a slot is the temperature of
the latest observation strictly before the slot timestamp. -/
theorem lookupBefore_sorted (obs : List (Int × Int)) (i : Int)
    (hsort : obs.Pairwise (fun p q => p.1 < q.1)) :
    lookupBefore obs i = latestStrictlyBefore obs i := by
  unfold lookupBefore latestStrictlyBefore
  rw [lookupBeforeEntry_sorted obs i hsort]

/-- The success path of the embedded `NonCachingClient::query`: when the
payload is non-empty, the range is proper and the availability check
passes, the result is the resampling loop's output. -/
theorem query_ok_of (l : List (Int × Int)) (s e : Int) (hne : l ≠ [])
    (hlt : s < e) (h1 : minDt l ≤ s) (h2 : s < maxDt l)
    (h3 : minDt l ≤ e) (h4 : e < maxDt l) :
    query (some l) s e = .ok (resampleLoop l (granularity (e - s)) e s) := by
  show (if l.isEmpty = true then Except.error QueryError.emptyPayload
    else if s > e then Except.error QueryError.invalidRange
    else if s = e then Except.ok []
    else if ¬((minDt l ≤ s ∧ s < maxDt l) ∧ (minDt l ≤ e ∧ e < maxDt l)) then
      Except.error QueryError.rangeUnavailable
    else Except.ok (resampleLoop l (granularity (e - s)) e s)) = _
  have h0 : ¬ (l.isEmpty = true) := by simpa [List.isEmpty_iff] using hne
  rw [if_neg h0, if_neg (by omega : ¬ s > e), if_neg (by omega : ¬ s = e),
    if_neg (not_not_intro ⟨⟨h1, h2⟩, ⟨h3, h4⟩⟩)]

/-- Inversion of a successful embedded query: the payload was non-empty,
and either the range was empty (empty output) or the availability check
passed and the output is the resampling loop's. -/
theorem query_ok_inv (l : List (Int × Int)) (s e : Int)
    (out : List (Option Int)) (h : query (some l) s e = .ok out) :
    l ≠ [] ∧ s ≤ e ∧
      ((s = e ∧ out = []) ∨
        (s < e ∧ (minDt l ≤ s ∧ s < maxDt l) ∧ (minDt l ≤ e ∧ e < maxDt l) ∧
          out = resampleLoop l (granularity (e - s)) e s)) := by
  replace h : (if l.isEmpty = true then Except.error QueryError.emptyPayload
      else if s > e then Except.error QueryError.invalidRange
      else if s = e then Except.ok []
      else if ¬((minDt l ≤ s ∧ s < maxDt l) ∧ (minDt l ≤ e ∧ e < maxDt l)) then
        Except.error QueryError.rangeUnavailable
      else Except.ok (resampleLoop l (granularity (e - s)) e s)) = .ok out := h
  by_cases h0 : l.isEmpty = true
  · rw [if_pos h0] at h; simp at h
  rw [if_neg h0] at h
  by_cases h1 : s > e
  · rw [if_pos h1] at h; simp at h
  rw [if_neg h1] at h
  by_cases h2 : s = e
  · rw [if_pos h2] at h
    exact ⟨by simpa [List.isEmpty_iff] using h0, by omega,
      Or.inl ⟨h2, by simpa using h.symm⟩⟩
  rw [if_neg h2] at h
  by_cases h3 : ¬((minDt l ≤ s ∧ s < maxDt l) ∧ (minDt l ≤ e ∧ e < maxDt l))
  · rw [if_pos h3] at h; simp at h
  · rw [if_neg h3] at h
    rw [not_not] at h3
    exact ⟨by simpa [List.isEmpty_iff] using h0, by omega,
      Or.inr ⟨by omega, h3.1, h3.2, by simpa using h.symm⟩⟩

/-- Modelled from the spec: the caching layer (`RangeCache`, design
document §3 and §4.1) is absent from the repository's source — only the
trait declaration `OpenWeatherCache` in `src/rust/src/lib.rs` and the
design document describe it, and the sample `NonCachingClient` documents
that it implements no caching.  Per §4.1 step 2 the provider call always
returns its fixed full-horizon payload and the cache "is free to fetch
the whole window once and mark the whole returned span covered"; since
the provider is deterministic for a given location (§3), repeating the
full-window fetch can never add coverage, so the covered-interval state
collapses to one flag: whether the full window has been fetched. -/
structure RangeCache where
  payload : List (Int × Int)
  fetched : Bool

/-- Modelled from the spec: one `RangeCache.query` call (§4.1), returning
the result, the updated cache, and the number of remote fetches the call
triggered.  `start > end` fails immediately with `InvalidRange` (§4.1,
surfaced before any fetch per §7); `start == end` yields an empty
sequence, with an empty missing-interval set and hence no fetch (§4.1,
§8 property 5); a cache whose window is already covered serves the query
with zero fetches (§4.1 step 1); otherwise one remote fetch is made — an
empty payload is treated as a fetch failure and nothing is cached (§7
`EmptyPayload`), else the fetched span is marked covered and the query is
answered by the reference post-fetch pipeline (availability check,
granularity selection and resampling loop of `NonCachingClient::query`,
which §4.3 mandates to mirror literally). -/
def RangeCache.queryC (c : RangeCache) (startSecs endSecs : Int) :
    Except QueryError (List (Option Int)) × RangeCache × Nat :=
  if startSecs > endSecs then (.error .invalidRange, c, 0)
  else if startSecs = endSecs then (.ok [], c, 0)
  else if c.fetched then (query (some c.payload) startSecs endSecs, c, 0)
  else if c.payload.isEmpty then (.error .emptyPayload, c, 1)
  else (query (some c.payload) startSecs endSecs, { c with fetched := true }, 1)

/-- Run a sequence of queries against a cache, threading the cache state
and summing the remote fetches. -/
def runQueries : RangeCache → List (Int × Int) →
    List (Except QueryError (List (Option Int))) × RangeCache × Nat
  | c, [] => ([], c, 0)
  | c, q :: rest =>
    let r := c.queryC q.1 q.2
    let rr := runQueries r.2.1 rest
    (r.1 :: rr.1, rr.2.1, r.2.2 + rr.2.2)

/-- `SAMPLE_DATA_START` of the repository's tests. -/
def T0 : Int := 1659722400

/-- A provider payload of the shape the provider contract guarantees
(§6): five days of samples at three-hour spacing starting at `T0`,
i.e. 41 observations `T0 + 10800 * j`. -/
def samplePayload : List (Int × Int) :=
  (List.range 41).map (fun j => (T0 + 10800 * (j : Int), (j : Int)))

/-- A cache for one location that has not fetched yet. -/
def freshCache : RangeCache := ⟨samplePayload, false⟩

theorem samplePayload_ne : samplePayload ≠ [] := by decide

theorem minDt_sample : minDt samplePayload = T0 := by decide

theorem maxDt_sample : maxDt samplePayload = T0 + 432000 := by decide

theorem queryC_fetched (c : RangeCache) (s e : Int) (hf : c.fetched = true)
    (hlt : s < e) :
    c.queryC s e = (query (some c.payload) s e, c, 0) := by
  unfold RangeCache.queryC
  rw [if_neg (by omega), if_neg (by omega), if_pos hf]

theorem queryC_fresh (l : List (Int × Int)) (s e : Int) (hne : l ≠ [])
    (hlt : s < e) :
    (RangeCache.mk l false).queryC s e =
      (query (some l) s e, RangeCache.mk l true, 1) := by
  unfold RangeCache.queryC
  rw [if_neg (by omega), if_neg (by omega),
    if_neg (by simp : ¬ (RangeCache.mk l false).fetched = true),
    if_neg (by simpa [List.isEmpty_iff] using hne)]

theorem granularity_3600 : granularity 3600 = 60 := by decide

theorem granularity_10800 : granularity 10800 = 300 := by decide

theorem granularity_90000 : granularity 90000 = 3600 := by decide

theorem query_sample_3600 :
    query (some samplePayload) T0 (T0 + 3600) =
      .ok (resampleLoop samplePayload 60 (T0 + 3600) T0) := by
  have harg : T0 + 3600 - T0 = (3600 : Int) := by ring
  rw [query_ok_of samplePayload T0 (T0 + 3600) samplePayload_ne (by linarith)
      (by rw [minDt_sample]) (by rw [maxDt_sample]; linarith)
      (by rw [minDt_sample]; linarith) (by rw [maxDt_sample]; linarith),
    harg, granularity_3600]

theorem query_sample_10800 :
    query (some samplePayload) T0 (T0 + 10800) =
      .ok (resampleLoop samplePayload 300 (T0 + 10800) T0) := by
  have harg : T0 + 10800 - T0 = (10800 : Int) := by ring
  rw [query_ok_of samplePayload T0 (T0 + 10800) samplePayload_ne (by linarith)
      (by rw [minDt_sample]) (by rw [maxDt_sample]; linarith)
      (by rw [minDt_sample]; linarith) (by rw [maxDt_sample]; linarith),
    harg, granularity_10800]

theorem query_sample_90000 :
    query (some samplePayload) T0 (T0 + 90000) =
      .ok (resampleLoop samplePayload 3600 (T0 + 90000) T0) := by
  have harg : T0 + 90000 - T0 = (90000 : Int) := by ring
  rw [query_ok_of samplePayload T0 (T0 + 90000) samplePayload_ne (by linarith)
      (by rw [minDt_sample]) (by rw [maxDt_sample]; linarith)
      (by rw [minDt_sample]; linarith) (by rw [maxDt_sample]; linarith),
    harg, granularity_90000]

theorem len_sample_3600 :
    (resampleLoop samplePayload 60 (T0 + 3600) T0).length = 60 :=
  resampleLoop_length_mul samplePayload (by norm_num) (T0 + 3600) 60 T0
    (by push_cast; ring)

theorem len_sample_10800 :
    (resampleLoop samplePayload 300 (T0 + 10800) T0).length = 36 :=
  resampleLoop_length_mul samplePayload (by norm_num) (T0 + 10800) 36 T0
    (by push_cast; ring)

theorem len_sample_90000 :
    (resampleLoop samplePayload 3600 (T0 + 90000) T0).length = 25 :=
  resampleLoop_length_mul samplePayload (by norm_num) (T0 + 90000) 25 T0
    (by push_cast; ring)

theorem queryC_mk_true (l : List (Int × Int)) (s e : Int) (hlt : s < e) :
    (RangeCache.mk l true).queryC s e =
      (query (some l) s e, RangeCache.mk l true, 0) := by
  unfold RangeCache.queryC
  rw [if_neg (by omega), if_neg (by omega), if_pos rfl]

theorem fresh_call_10800 :
    freshCache.queryC T0 (T0 + 10800) =
      (.ok (resampleLoop samplePayload 300 (T0 + 10800) T0),
        RangeCache.mk samplePayload true, 1) := by
  show (RangeCache.mk samplePayload false).queryC T0 (T0 + 10800) = _
  rw [queryC_fresh samplePayload T0 (T0 + 10800) samplePayload_ne (by linarith),
    query_sample_10800]

theorem fresh_call_90000 :
    freshCache.queryC T0 (T0 + 90000) =
      (.ok (resampleLoop samplePayload 3600 (T0 + 90000) T0),
        RangeCache.mk samplePayload true, 1) := by
  show (RangeCache.mk samplePayload false).queryC T0 (T0 + 90000) = _
  rw [queryC_fresh samplePayload T0 (T0 + 90000) samplePayload_ne (by linarith),
    query_sample_90000]

theorem cached_call_3600 :
    (RangeCache.mk samplePayload true).queryC T0 (T0 + 3600) =
      (.ok (resampleLoop samplePayload 60 (T0 + 3600) T0),
        RangeCache.mk samplePayload true, 0) := by
  rw [queryC_mk_true samplePayload T0 (T0 + 3600) (by linarith), query_sample_3600]

theorem cached_call_10800 :
    (RangeCache.mk samplePayload true).queryC T0 (T0 + 10800) =
      (.ok (resampleLoop samplePayload 300 (T0 + 10800) T0),
        RangeCache.mk samplePayload true, 0) := by
  rw [queryC_mk_true samplePayload T0 (T0 + 10800) (by linarith), query_sample_10800]

theorem run_five :
    runQueries freshCache (List.replicate 5 (T0, T0 + 10800)) =
      (List.replicate 5 (.ok (resampleLoop samplePayload 300 (T0 + 10800) T0)),
        RangeCache.mk samplePayload true, 1) := by
  simp only [List.replicate, runQueries, fresh_call_10800, cached_call_10800]

theorem run_nested :
    runQueries freshCache [(T0, T0 + 90000), (T0, T0 + 10800), (T0, T0 + 3600)] =
      ([.ok (resampleLoop samplePayload 3600 (T0 + 90000) T0),
        .ok (resampleLoop samplePayload 300 (T0 + 10800) T0),
        .ok (resampleLoop samplePayload 60 (T0 + 3600) T0)],
        RangeCache.mk samplePayload true, 1) := by
  simp only [runQueries, fresh_call_90000, cached_call_10800, cached_call_3600]

/-- C1: once a first `query(start, end)` on a cache has succeeded, the
identical query on the resulting cache produces the identical output,
leaves the cache unchanged, and triggers zero further remote fetches (so
all subsequent identical queries do too); five identical calls to
`query(T, T+3h)` on a fresh cache trigger exactly one remote fetch in
total (each returning the same 36-sample result); and the nested
overlapping queries `[T, T+25h)`, `[T, T+3h)`, `[T, T+1h)` on a fresh
cache trigger exactly one remote fetch in total, returning 25-, 36- and
60-sample results respectively. -/
theorem single_remote_fetch :
    (∀ (c : RangeCache) (s e : Int) (out : List (Option Int))
        (c2 : RangeCache) (k : Nat),
        c.queryC s e = (.ok out, c2, k) → c2.queryC s e = (.ok out, c2, 0)) ∧
    ((runQueries freshCache (List.replicate 5 (T0, T0 + 10800))).2.2 = 1 ∧
      (runQueries freshCache (List.replicate 5 (T0, T0 + 10800))).1 =
        List.replicate 5 (.ok (resampleLoop samplePayload 300 (T0 + 10800) T0)) ∧
      (resampleLoop samplePayload 300 (T0 + 10800) T0).length = 36) ∧
    ((runQueries freshCache
        [(T0, T0 + 90000), (T0, T0 + 10800), (T0, T0 + 3600)]).2.2 = 1 ∧
      (runQueries freshCache
        [(T0, T0 + 90000), (T0, T0 + 10800), (T0, T0 + 3600)]).1 =
        [.ok (resampleLoop samplePayload 3600 (T0 + 90000) T0),
          .ok (resampleLoop samplePayload 300 (T0 + 10800) T0),
          .ok (resampleLoop samplePayload 60 (T0 + 3600) T0)] ∧
      (resampleLoop samplePayload 3600 (T0 + 90000) T0).length = 25 ∧
      (resampleLoop samplePayload 300 (T0 + 10800) T0).length = 36 ∧
      (resampleLoop samplePayload 60 (T0 + 3600) T0).length = 60) := by
  refine ⟨?_, ?_, ?_⟩
  · intro c s e out c2 k h
    unfold RangeCache.queryC at h
    by_cases h1 : s > e
    · rw [if_pos h1] at h
      simp [Prod.ext_iff] at h
    rw [if_neg h1] at h
    by_cases h2 : s = e
    · rw [if_pos h2] at h
      simp only [Prod.mk.injEq] at h
      obtain ⟨ho, hc, hk⟩ := h
      unfold RangeCache.queryC
      rw [if_neg h1, if_pos h2, ← hc, ← ho]
    rw [if_neg h2] at h
    by_cases h3 : c.fetched = true
    · rw [if_pos h3] at h
      simp only [Prod.mk.injEq] at h
      obtain ⟨ho, hc, hk⟩ := h
      rw [← hc, queryC_fetched c s e h3 (by omega), ho]
    rw [if_neg h3] at h
    by_cases h4 : c.payload.isEmpty = true
    · rw [if_pos h4] at h
      simp [Prod.ext_iff] at h
    rw [if_neg h4] at h
    simp only [Prod.mk.injEq] at h
    obtain ⟨ho, hc, hk⟩ := h
    have hc2 : c2 = RangeCache.mk c.payload true := by rw [← hc]
    rw [hc2, queryC_mk_true c.payload s e (by omega), ho]
  · exact ⟨by rw [run_five], by rw [run_five], len_sample_10800⟩
  · exact ⟨by rw [run_nested], by rw [run_nested],
      len_sample_90000, len_sample_10800, len_sample_3600⟩

/-- Concrete instance of the memoization statement of `single_remote_fetch`:
after the first successful call on a fresh cache, the identical call
returns the same output with zero fetches. -/
theorem single_remote_fetch_concrete :
    (RangeCache.mk samplePayload true).queryC T0 (T0 + 10800) =
      (.ok (resampleLoop samplePayload 300 (T0 + 10800) T0),
        RangeCache.mk samplePayload true, 0) :=
  single_remote_fetch.1 freshCache T0 (T0 + 10800)
    (resampleLoop samplePayload 300 (T0 + 10800) T0)
    (RangeCache.mk samplePayload true) 1 fresh_call_10800

/-- C2: the selected granularity is exactly 60 s when span < 7200, 300 s
when 7200 ≤ span < 86400, and 3600 s when span ≥ 86400; the thresholds
are half-open, so span = 7200 selects 300 s and span = 86400 selects
3600 s. -/
theorem granularity_selection (span : Int) :
    (span < 7200 → granularity span = 60) ∧
    (7200 ≤ span → span < 86400 → granularity span = 300) ∧
    (86400 ≤ span → granularity span = 3600) := by
  refine ⟨?_, ?_, ?_⟩ <;> intros <;>
    (unfold granularity TWO_HOURS ONE_DAY MINUTE FIVE_MINUTES ONE_HOUR;
      split_ifs <;> omega)

/-- Witness for `granularity_selection` at the half-open boundaries. -/
theorem granularity_selection_boundary :
    granularity 7200 = 300 ∧ granularity 86400 = 3600 :=
  ⟨(granularity_selection 7200).2.1 (by norm_num) (by norm_num),
    (granularity_selection 86400).2.2 (by norm_num)⟩

/-- C3: for a successful query with start < end, the first emitted value
is the lookup at slot timestamp start + g — the loop advances before it
compares — and when the span is an exact multiple g * k of the selected
granularity the output has exactly k = span / g values, not span / g + 1. -/
theorem advance_before_compare (l : List (Int × Int)) (s e : Int)
    (out : List (Option Int)) (h : query (some l) s e = .ok out)
    (hlt : s < e) (k : Nat) (hk : e - s = granularity (e - s) * k) :
    out.length = k ∧ out.get? 0 = some (lookupBefore l (s + granularity (e - s))) := by
  obtain ⟨hne, hle, hcase⟩ := query_ok_inv l s e out h
  rcases hcase with ⟨heq, hout⟩ | ⟨_, _, _, hout⟩
  · omega
  · subst hout
    constructor
    · exact resampleLoop_length_mul l (granularity_pos _) e k s hk
    · rw [resampleLoop_get l (granularity_pos _) e 0 s]
      rw [if_pos (by simpa using hlt)]
      norm_num

/-- Witness for `advance_before_compare` at a concrete query: span 120 at
granularity 60 yields exactly 2 values, the first being the lookup at
slot timestamp 60. -/
theorem advance_before_compare_concrete :
    (resampleLoop [(0, 5), (7200, 9)] (granularity (120 - 0)) 120 0).length = 2 ∧
    (resampleLoop [(0, 5), (7200, 9)] (granularity (120 - 0)) 120 0).get? 0 =
      some (lookupBefore [(0, 5), (7200, 9)] (0 + granularity (120 - 0))) :=
  advance_before_compare [(0, 5), (7200, 9)] 0 120 _
    (query_ok_of [(0, 5), (7200, 9)] 0 120 (by decide) (by norm_num)
      (by decide) (by decide) (by decide) (by decide))
    (by norm_num) 2 (by decide)

/-- C5: for every cache state and timestamp `T`, `query(T, T)` returns an
empty sequence, no error, and triggers no remote fetch; the embedded
reference pipeline likewise returns an empty sequence for `T = T` once
the fetch has succeeded with a non-empty payload. -/
theorem empty_range_ok (t : Int) :
    (∀ c : RangeCache, c.queryC t t = (.ok [], c, 0)) ∧
    (∀ l : List (Int × Int), l ≠ [] → query (some l) t t = .ok []) := by
  constructor
  · intro c
    unfold RangeCache.queryC
    rw [if_neg (by omega), if_pos rfl]
  · intro l hne
    show (if l.isEmpty = true then Except.error QueryError.emptyPayload
      else if t > t then Except.error QueryError.invalidRange
      else if t = t then Except.ok []
      else if ¬((minDt l ≤ t ∧ t < maxDt l) ∧ (minDt l ≤ t ∧ t < maxDt l)) then
        Except.error QueryError.rangeUnavailable
      else Except.ok (resampleLoop l (granularity (t - t)) t t)) = _
    rw [if_neg (by simpa [List.isEmpty_iff] using hne), if_neg (by omega),
      if_pos rfl]

/-- Witness for `empty_range_ok` at a concrete cache and payload. -/
theorem empty_range_ok_concrete :
    (RangeCache.mk [] false).queryC 3 3 = (.ok [], RangeCache.mk [] false, 0) ∧
    query (some [(0, 5)]) 3 3 = .ok [] :=
  ⟨(empty_range_ok 3).1 (RangeCache.mk [] false),
    (empty_range_ok 3).2 [(0, 5)] (by decide)⟩

/-- C6: for start > end, the cache fails with `InvalidRange` immediately,
unchanged and with zero remote fetches; the embedded reference pipeline
also rejects start > end with `InvalidRange` once a non-empty payload was
fetched. -/
theorem invalid_range_rejected (s e : Int) (hgt : e < s) :
    (∀ c : RangeCache, c.queryC s e = (.error .invalidRange, c, 0)) ∧
    (∀ l : List (Int × Int), l ≠ [] → query (some l) s e = .error .invalidRange) := by
  constructor
  · intro c
    unfold RangeCache.queryC
    rw [if_pos (by omega)]
  · intro l hne
    show (if l.isEmpty = true then Except.error QueryError.emptyPayload
      else if s > e then Except.error QueryError.invalidRange
      else if s = e then Except.ok []
      else if ¬((minDt l ≤ s ∧ s < maxDt l) ∧ (minDt l ≤ e ∧ e < maxDt l)) then
        Except.error QueryError.rangeUnavailable
      else Except.ok (resampleLoop l (granularity (e - s)) e s)) = _
    rw [if_neg (by simpa [List.isEmpty_iff] using hne), if_pos (by omega)]

/-- Witness for `invalid_range_rejected` at `query(T+1, T)`. -/
theorem invalid_range_rejected_concrete :
    (RangeCache.mk [] false).queryC 1 0 = (.error .invalidRange, RangeCache.mk [] false, 0) ∧
    query (some [(0, 5)]) 1 0 = .error .invalidRange :=
  ⟨(invalid_range_rejected 1 0 (by norm_num)).1 (RangeCache.mk [] false),
    (invalid_range_rejected 1 0 (by norm_num)).2 [(0, 5)] (by decide)⟩

/-- C9: a syntactically valid but empty provider series makes the query
fail with `EmptyPayload`, and the cache treats it as a fetch failure:
the fetch is counted but the cache state is unchanged — nothing is
cached, so the range stays fetchable. -/
theorem empty_payload_rejected (s e : Int) :
    query (some []) s e = .error .emptyPayload ∧
    (∀ c : RangeCache, c.payload = [] → c.fetched = false → s < e →
      c.queryC s e = (.error .emptyPayload, c, 1)) := by
  constructor
  · rfl
  · intro c hp hf hlt
    unfold RangeCache.queryC
    rw [if_neg (by omega), if_neg (by omega), if_neg (by rw [hf]; simp),
      if_pos (by rw [hp]; rfl)]

/-- Witness for `empty_payload_rejected` on a fresh empty-payload cache. -/
theorem empty_payload_rejected_concrete :
    (RangeCache.mk [] false).queryC 0 5 = (.error .emptyPayload, RangeCache.mk [] false, 1) :=
  (empty_payload_rejected 0 5).2 (RangeCache.mk [] false) rfl rfl (by norm_num)

/-- C4 counterexample: with observations at 0, 60 and 7200 and the query
`[0, 60)` (granularity 60, one slot at t = 60), the code's
`range(..60).next_back()` skips the observation exactly at t = 60 and
returns the temperature at 0, while the claim's "latest observation with
timestamp ≤ t" rule would return the temperature at 60. -/
theorem slot_value_counterexample :
    query (some [(0, 10), (60, 20), (7200, 30)]) 0 60 = .ok [some 10] ∧
    latestAtOrBefore [(0, 10), (60, 20), (7200, 30)] 60 = some 20 ∧
    (some (10 : Int)) ≠ some 20 := by
  refine ⟨?_, by decide, by decide⟩
  rw [query_ok_of [(0, 10), (60, 20), (7200, 30)] 0 60 (by decide) (by norm_num)
      (by decide) (by decide) (by decide) (by decide)]
  have hg : granularity (60 - 0 : Int) = 60 := by decide
  rw [hg, resampleLoop_step _ (by norm_num) (by norm_num : (0 : Int) < 60),
    resampleLoop_stop _ (by norm_num : ¬ (0 : Int) + 60 < 60)]
  have hv : lookupBefore [(0, 10), (60, 20), (7200, 30)] (0 + 60) = some 10 := by
    decide
  rw [hv]

/-- C4 (amended): for every slot emitted by a successful query on a
payload sorted strictly ascending by timestamp, the slot's value is the
temperature of the latest observation whose timestamp is STRICTLY LESS
than the slot timestamp t — an observation exactly at t is not used — or
None when no observation with timestamp < t exists. -/
theorem slot_value_last_known (l : List (Int × Int)) (s e : Int)
    (hsort : l.Pairwise (fun p q => p.1 < q.1))
    (out : List (Option Int)) (h : query (some l) s e = .ok out)
    (n : Nat) (hn : n < out.length) :
    out.get? n =
      some (latestStrictlyBefore l (s + ((n : Int) + 1) * granularity (e - s))) := by
  obtain ⟨hne, hle, hcase⟩ := query_ok_inv l s e out h
  rcases hcase with ⟨heq, hout⟩ | ⟨hlt, _, _, hout⟩
  · rw [hout] at hn; simp at hn
  · subst hout
    have hcond : s + (n : Int) * granularity (e - s) < e := by
      by_contra hc
      have hnone := resampleLoop_get l (granularity_pos (e - s)) e n s
      rw [if_neg hc] at hnone
      have := List.get?_eq_none.mp hnone
      omega
    rw [resampleLoop_get l (granularity_pos (e - s)) e n s, if_pos hcond,
      lookupBefore_sorted l _ hsort]

/-- Witness for `slot_value_last_known`: slot 0 of the query `[0, 120)`
over observations at 0 and 7200 is the latest observation strictly
before t = 60. -/
theorem slot_value_last_known_concrete :
    (resampleLoop [(0, 5), (7200, 9)] (granularity (120 - 0)) 120 0).get? 0 =
      some (latestStrictlyBefore [(0, 5), (7200, 9)]
        (0 + ((0 : Int) + 1) * granularity (120 - 0))) :=
  slot_value_last_known [(0, 5), (7200, 9)] 0 120 (by decide) _
    (query_ok_of [(0, 5), (7200, 9)] 0 120 (by decide) (by norm_num)
      (by decide) (by decide) (by decide) (by decide))
    0
    (by rw [resampleLoop_length_mul [(0, 5), (7200, 9)]
        (granularity_pos (120 - 0)) 120 2 0 (by decide)]; norm_num)

/-- C7: a slot whose timestamp lies strictly before every available
observation gets value None from the resampling loop — not an error — and
the rest of the output is still produced in full (the output length is
set by the range and granularity alone). -/
theorem missing_leading_data (obs : List (Int × Int)) {g : Int} (s e : Int)
    (hg : 0 < g) (n : Nat)
    (hearly : ∀ p ∈ obs, s + ((n : Int) + 1) * g < p.1)
    (hin : s + (n : Int) * g < e) :
    (resampleLoop obs g e s).get? n = some none ∧
    (∀ k : Nat, e - s = g * k → (resampleLoop obs g e s).length = k) := by
  constructor
  · rw [resampleLoop_get obs hg e n s, if_pos hin]
    have hnone : lookupBefore obs (s + ((n : Int) + 1) * g) = none := by
      unfold lookupBefore
      rw [lookupBeforeEntry_eq_none obs _
        (fun p hp => by have := hearly p hp; omega)]
      rfl
    rw [hnone]
  · intro k hk
    exact resampleLoop_length_mul obs hg e k s hk

/-- Witness for `missing_leading_data`: with the only observation at 100,
the slot at t = 60 of the range `[0, 120)` at granularity 60 is None and
the output still has its 2 slots. -/
theorem missing_leading_data_concrete :
    (resampleLoop [(100, 7)] 60 120 0).get? 0 = some none ∧
    (resampleLoop [(100, 7)] 60 120 0).length = 2 :=
  ⟨(missing_leading_data [(100, 7)] 0 120 (by norm_num) 0 (by decide)
      (by norm_num)).1,
    (missing_leading_data [(100, 7)] 0 120 (by norm_num) 0 (by decide)
      (by norm_num)).2 2 (by norm_num)⟩

/-- C8 counterexample: the payload with observations at 0 and 10800
covers the requested span `[0, 10800)` — its first timestamp is ≤ 0 and
its last timestamp equals the requested end — yet the query fails with
`RangeUnavailable`, because the availability check uses the half-open
range `min_dt..max_dt` and rejects `end == max_dt`. -/
theorem range_check_counterexample :
    query (some [(0, 1), (10800, 2)]) 0 10800 = .error .rangeUnavailable ∧
    minDt [(0, 1), (10800, 2)] ≤ 0 ∧
    (10800 : Int) ≤ maxDt [(0, 1), (10800, 2)] := by
  refine ⟨rfl, by decide, by decide⟩

/-- C8 (amended): for a query with start < end on a successfully fetched
non-empty payload, the query fails with `RangeUnavailable` exactly when
NOT (min_dt ≤ start AND end < max_dt) — the check is strict at the
payload's last timestamp, so end equal to the last observation timestamp
is rejected — and succeeds exactly when min_dt ≤ start and end < max_dt. -/
theorem range_unavailable_iff (l : List (Int × Int)) (s e : Int)
    (hne : l ≠ []) (hlt : s < e) :
    (query (some l) s e = .error .rangeUnavailable ↔
      ¬(minDt l ≤ s ∧ e < maxDt l)) ∧
    ((∃ out, query (some l) s e = .ok out) ↔ (minDt l ≤ s ∧ e < maxDt l)) := by
  have hshape : query (some l) s e =
      (if ¬((minDt l ≤ s ∧ s < maxDt l) ∧ (minDt l ≤ e ∧ e < maxDt l)) then
        Except.error QueryError.rangeUnavailable
      else Except.ok (resampleLoop l (granularity (e - s)) e s)) := by
    show (if l.isEmpty = true then Except.error QueryError.emptyPayload
      else if s > e then Except.error QueryError.invalidRange
      else if s = e then Except.ok []
      else if ¬((minDt l ≤ s ∧ s < maxDt l) ∧ (minDt l ≤ e ∧ e < maxDt l)) then
        Except.error QueryError.rangeUnavailable
      else Except.ok (resampleLoop l (granularity (e - s)) e s)) = _
    rw [if_neg (by simpa [List.isEmpty_iff] using hne), if_neg (by omega),
      if_neg (by omega)]
  have hcond : ((minDt l ≤ s ∧ s < maxDt l) ∧ (minDt l ≤ e ∧ e < maxDt l)) ↔
      (minDt l ≤ s ∧ e < maxDt l) := by
    constructor
    · rintro ⟨⟨ha, _⟩, ⟨_, hd⟩⟩; exact ⟨ha, hd⟩
    · rintro ⟨ha, hd⟩; exact ⟨⟨ha, by omega⟩, ⟨by omega, hd⟩⟩
  rw [hshape]
  by_cases hav : minDt l ≤ s ∧ e < maxDt l
  · rw [if_neg (not_not_intro (hcond.mpr hav))]
    refine ⟨⟨fun habs => absurd habs (by simp), fun hneg => absurd hav hneg⟩,
      ⟨fun _ => hav, fun _ => ⟨_, rfl⟩⟩⟩
  · rw [if_pos (fun hc => hav (hcond.mp hc))]
    refine ⟨⟨fun _ => hav, fun _ => rfl⟩,
      ⟨fun ⟨out, hout⟩ => absurd hout (by simp), fun hh => absurd hh hav⟩⟩

/-- Witness for `range_unavailable_iff`: the span `[0, 20000)` reaches
past the payload's last timestamp 10800, so the query fails with
`RangeUnavailable`. -/
theorem range_unavailable_iff_concrete :
    query (some [(0, 1), (10800, 2)]) 0 20000 = .error .rangeUnavailable :=
  (range_unavailable_iff [(0, 1), (10800, 2)] 0 20000 (by decide)
    (by norm_num)).1.mpr (by decide)

/-- C10 (implicit): every element of a successful query's output is Some:
the availability check forces min_dt ≤ start, every emitted slot
timestamp start + (n+1)·g is strictly above min_dt, so the
strictly-before lookup always finds an observation. -/
theorem success_no_none (l : List (Int × Int)) (s e : Int)
    (out : List (Option Int)) (h : query (some l) s e = .ok out) :
    ∀ x ∈ out, x.isSome := by
  obtain ⟨hne, hle, hcase⟩ := query_ok_inv l s e out h
  rcases hcase with ⟨heq, hout⟩ | ⟨hlt, ⟨hav1, hav2⟩, hav3, hout⟩
  · subst hout; intro x hx; simp at hx
  · subst hout
    intro x hx
    obtain ⟨n, hn⟩ := List.mem_iff_get?.mp hx
    rw [resampleLoop_get l (granularity_pos (e - s)) e n s] at hn
    by_cases hcond : s + (n : Int) * granularity (e - s) < e
    · rw [if_pos hcond] at hn
      have hx2 : x = lookupBefore l (s + ((n : Int) + 1) * granularity (e - s)) :=
        (Option.some.inj hn).symm
      rw [hx2]
      cases l with
      | nil => exact absurd rfl hne
      | cons p0 rest =>
        have hp0 : p0.1 = minDt (p0 :: rest) := rfl
        have hg := granularity_pos (e - s)
        have hslot : p0.1 < s + ((n : Int) + 1) * granularity (e - s) := by
          have hpos : 0 < ((n : Int) + 1) * granularity (e - s) := by
            have := Int.natCast_nonneg n
            positivity
          have : minDt (p0 :: rest) ≤ s := hav1
          omega
        have hsome := lookupBeforeEntry_isSome (p0 :: rest) _
          ⟨p0, List.mem_cons_self p0 rest, hslot⟩
        unfold lookupBefore
        cases hq : lookupBeforeEntry (p0 :: rest)
            (s + ((n : Int) + 1) * granularity (e - s)) with
        | none => rw [hq] at hsome; simp at hsome
        | some q => rfl
    · rw [if_neg hcond] at hn
      simp at hn

/-- Witness for `success_no_none` at the single slot of the concrete
query `[0, 60)` over observations at 0 and 10800. -/
theorem success_no_none_concrete : (some (5 : Int)).isSome :=
  success_no_none [(0, 5), (10800, 7)] 0 60 [some 5]
    (by rw [query_ok_of [(0, 5), (10800, 7)] 0 60 (by decide) (by norm_num)
          (by decide) (by decide) (by decide) (by decide)]
        have hg : granularity (60 - 0 : Int) = 60 := by decide
        rw [hg, resampleLoop_step _ (by norm_num) (by norm_num : (0 : Int) < 60),
          resampleLoop_stop _ (by norm_num : ¬ (0 : Int) + 60 < 60)]
        have hv : lookupBefore [(0, 5), (10800, 7)] (0 + 60) = some 5 := by decide
        rw [hv])
    (some 5) (by norm_num)
